import Mathlib

/-!
Shallow embedding of `archive.py` (william20111/ansible_modules).

The module archives a source directory into a destination directory using an
external tool (`tar`/`zip`) and optionally prunes old archives down to a
configured retention count.  We embed:

* the destination directory as a list of `(filename, st_mtime)` pairs;
* the host environment (`module.get_bin_path`, `module.run_command`,
  `os.path`/`os.access` queries, the `os.remove` failure oracle) as a record
  of functions;
* each handler class (`TgzArchive`, `TarArchive`, `TarBzip`, `TarXz`,
  `ZipArchive`) as a record tagged with its class, with its methods
  (`archive_check`, `archive_dir`, `archive_removal`) translated line-by-line;
* `pick_handler` and `main` as functions returning an explicit result value
  (`exit_json` / `fail_json` / an uncaught Python `TypeError`).

Python's `sorted(filedata, key=filedata.get)` is a stable sort of the dict's
keys by their mapped values; we model it with Mathlib's stable
`List.insertionSort` over the association list and project the keys.
-/

namespace ArchiveModule

/-- One directory on the target filesystem: the files directly under it,
as `(filename, st_mtime)` pairs, in `os.listdir` order. -/
@[ext]
structure DestDir where
  files : List (String × Nat)
deriving Repr, DecidableEq

/-- `os.listdir(dest)`: the filenames in the directory, in listing order. -/
def os_listdir (d : DestDir) : List String :=
  d.files.map Prod.fst

/-- `os.stat(os.path.join(dest, fname)).st_mtime` for a file `fname` of the
directory: look its modification time up in the listing. -/
def os_stat_mtime (d : DestDir) (fname : String) : Nat :=
  (d.files.lookup fname).getD 0

/-- `os.path.join(dest, fname)` for a relative `fname`. -/
def os_path_join (dir fname : String) : String :=
  dir ++ "/" ++ fname

/-- `os.remove(path)`: drop the entry of the directory whose full path is
`path`. -/
def os_remove (dest : String) (d : DestDir) (path : String) : DestDir :=
  ⟨d.files.filter (fun e => os_path_join dest e.1 != path)⟩

/-- Python's `needle in hay` on strings, on the underlying character lists:
`needle` occurs somewhere in `hay` as a contiguous substring. -/
def listSubstr (needle : List Char) : List Char → Bool
  | [] => needle.isEmpty
  | c :: t => needle.isPrefixOf (c :: t) || listSubstr needle t

/-- Python's substring test `needle in hay` on strings. -/
def strIn (needle hay : String) : Bool :=
  listSubstr needle.data hay.data

/-- The comparison `sorted(filedata, key=filedata.get)` sorts by: the stored
`st_mtime` value of each entry. -/
def valueLe (a b : String × Nat) : Prop :=
  a.2 ≤ b.2

instance : DecidableRel valueLe :=
  fun a b => inferInstanceAs (Decidable (a.2 ≤ b.2))

instance : IsTotal (String × Nat) valueLe :=
  ⟨fun a b => Nat.le_total a.2 b.2⟩

instance : IsTrans (String × Nat) valueLe :=
  ⟨fun _ _ _ hab hbc => Nat.le_trans hab hbc⟩

/-- Python's `sorted` (a stable sort) of the `(path, st_mtime)` association
list by value, modelled with Mathlib's stable insertion sort. -/
def sortedByValue (filedata : List (String × Nat)) : List (String × Nat) :=
  List.insertionSort valueLe filedata

/-- The dict returned by `archive_removal`: `out` is the reported file list
and `err` the optional per-run removal error message. -/
structure RemovalResult where
  err : Option String
  out : List String
deriving Repr, DecidableEq

/-- The intermediate `archives` list of `archive_removal`: the listed
filenames whose name contains the extension as a substring. -/
def archivesOf (extension : String) (d : DestDir) : List String :=
  (os_listdir d).filter (fun a => strIn extension a)

/-- The deletion loop `for x in range(0, delete): try: os.remove(...)` from
`TgzArchive.archive_removal` (src/archive.py:93-98).  `fragile p = true`
models `os.remove(p)` raising; the `except` clause then returns at once, so
the loop stops at the first failing path.  (We model the failure as caught by
the `except IOError` clause.) -/
def removeLoop (dest : String) (fragile : String → Bool) :
    DestDir → List String → DestDir × Option String
  | d, [] => (d, none)
  | d, p :: rest =>
    if fragile p then (d, some ("failed to remove " ++ p))
    else removeLoop dest fragile (os_remove dest d p) rest

/-- `TgzArchive.archive_removal` (src/archive.py:84-101); the `ZipArchive`
version (src/archive.py:177-194) is textually identical, so both classes
share this translation, parameterised by the instance fields
`self.extension`, `self.dest`, `self.number`.

Note: for `number < 0` real Python raises `IndexError` inside the loop
(`range(0, delete)` overruns the list); `List.take` instead stops at the end
of the list.  `main` only ever calls this with the user's retention count, and
every claim constrains it to be positive, so the difference is unreachable
in the properties below. -/
def archive_removal (extension dest : String) (number : Int)
    (fragile : String → Bool) (d : DestDir) : DestDir × RemovalResult :=
  let dir_list := os_listdir d
  let archives := dir_list.filter (fun a => strIn extension a)
  let filedata : List (String × Nat) :=
    archives.map (fun fname => (os_path_join dest fname, os_stat_mtime d fname))
  let filedata_sorted : List String := (sortedByValue filedata).map Prod.fst
  if (filedata_sorted.length : Int) > number then
    let delete := ((filedata_sorted.length : Int) - number).toNat
    match removeLoop dest fragile d (filedata_sorted.take delete) with
    | (d2, some e) => (d2, { err := some e, out := archives })
    | (d2, none) =>
      (d2, { err := none, out := (os_listdir d2).filter (fun a => strIn extension a) })
  else
    (d, { err := none, out := (os_listdir d).filter (fun a => strIn extension a) })

/-- The intermediate `filedata` association of `archive_removal`: each
matching filename's full path with its modification time. -/
def filedataOf (extension dest : String) (d : DestDir) : List (String × Nat) :=
  (archivesOf extension d).map
    (fun fname => (os_path_join dest fname, os_stat_mtime d fname))

/-- The intermediate `filedata_sorted` of `archive_removal`: the full paths
in ascending modification-time order. -/
def sortedPathsOf (extension dest : String) (d : DestDir) : List String :=
  (sortedByValue (filedataOf extension dest d)).map Prod.fst

/-- The deletion candidates of one `archive_removal` run: the `excess`
oldest full paths, the ones the loop at src/archive.py:93-98 passes to
`os.remove`. -/
def candidatesOf (extension dest : String) (number : Int) (d : DestDir) :
    List String :=
  (sortedPathsOf extension dest d).take
    ((((archivesOf extension d).length : Int) - number).toNat)

/-- The host environment seen through `AnsibleModule` and `os`:
binary lookup, subprocess execution (returns `(rc, out, err)`), path
predicates, `~` expansion, the `os.remove` failure oracle, and the mtime that
a newly created archive file receives. -/
structure ModuleEnv where
  binPath : String → Option String
  runCommand : String → Int × String × String
  pathExists : String → Bool
  readable : String → Bool
  writable : String → Bool
  expanduser : String → String
  fragile : String → Bool
  archiveMtime : Nat

/-- The five handler classes of the source. -/
inductive HandlerKind
  | ZipArchive
  | TgzArchive
  | TarBzip
  | TarXz
  | TarArchive
deriving Repr, DecidableEq

/-- An instantiated handler object: the fields every class's `__init__`
stores on `self`. -/
structure Handler where
  kind : HandlerKind
  src : String
  dest : String
  archive : String
  number : Option Int
  module : ModuleEnv
  cmd_path : Option String
  zipflag : String
  extension : String

/-- `TgzArchive.__init__` (src/archive.py:65-73). -/
def TgzArchive.init (src dest archive : String) (number : Option Int)
    (module : ModuleEnv) : Handler :=
  { kind := .TgzArchive, src, dest, archive, number, module,
    cmd_path := module.binPath "tar", zipflag := "z", extension := ".tar.gz" }

/-- `TarArchive.__init__` (src/archive.py:106-114). -/
def TarArchive.init (src dest archive : String) (number : Option Int)
    (module : ModuleEnv) : Handler :=
  { kind := .TarArchive, src, dest, archive, number, module,
    cmd_path := module.binPath "tar", zipflag := "", extension := ".tar" }

/-- `TarBzip.__init__` (src/archive.py:123-131). -/
def TarBzip.init (src dest archive : String) (number : Option Int)
    (module : ModuleEnv) : Handler :=
  { kind := .TarBzip, src, dest, archive, number, module,
    cmd_path := module.binPath "tar", zipflag := "j", extension := ".tar.bz2" }

/-- `TarXz.__init__` (src/archive.py:140-148). -/
def TarXz.init (src dest archive : String) (number : Option Int)
    (module : ModuleEnv) : Handler :=
  { kind := .TarXz, src, dest, archive, number, module,
    cmd_path := module.binPath "tar", zipflag := "J", extension := ".tar.xz" }

/-- `ZipArchive.__init__` (src/archive.py:156-163); it has no `zipflag`. -/
def ZipArchive.init (src dest archive : String) (number : Option Int)
    (module : ModuleEnv) : Handler :=
  { kind := .ZipArchive, src, dest, archive, number, module,
    cmd_path := module.binPath "zip", zipflag := "", extension := ".zip" }

/-- Dispatch of `archive_check` over the five classes.  The four tar-family
checks (src/archive.py:80-82, 116-118, 133-135, 150-152) compare the
requested tag with the class's own tag and never consult `self.cmd_path`.
`ZipArchive.archive_check` (src/archive.py:170-175) first requires
`self.cmd_path` to be set and then that `get_bin_path(arch_type)` resolve to
that same path.  Python returns `True` or falls through returning `None`
(falsy); we return `Bool`. -/
def Handler.archive_check (self : Handler) (arch_type : String) : Bool :=
  match self.kind with
  | .TgzArchive => arch_type == "tgz"
  | .TarArchive => arch_type == "tar"
  | .TarBzip => arch_type == "bz2"
  | .TarXz => arch_type == "xz"
  | .ZipArchive =>
    match self.cmd_path with
    | none => false
    | some p => self.module.binPath arch_type == some p

/-- Python renders `None` through `'%s'` as the string `None`. -/
def optStr : Option String → String
  | none => "None"
  | some s => s

/-- The dict returned by `archive_dir`. -/
structure ArchResult where
  cmd : String
  rc : Int
  out : String
  err : String
deriving Repr, DecidableEq

/-- `TgzArchive.archive_dir` (src/archive.py:75-78) for the tar family and
`ZipArchive.archive_dir` (src/archive.py:165-168): build the command string,
run it, and return the dict with the captured exit code and streams — a
non-zero exit code is returned, not raised. -/
def Handler.archive_dir (self : Handler) : ArchResult :=
  let cmd :=
    match self.kind with
    | .ZipArchive =>
      optStr self.cmd_path ++ " -r " ++ self.dest ++ "/" ++ self.archive
        ++ " " ++ self.src
    | _ =>
      optStr self.cmd_path ++ " -v" ++ self.zipflag ++ "cf " ++ self.dest
        ++ "/" ++ self.archive ++ " " ++ self.src
  let r := self.module.runCommand cmd
  { cmd := cmd, rc := r.1, out := r.2.1, err := r.2.2 }

/-- Method form of `archive_removal`, reading the instance fields.  It is
only ever invoked by `main` with `self.number` set (the `if number:` guard),
so the `getD` default is dead code. -/
def Handler.archive_removal (self : Handler) (d : DestDir) :
    DestDir × RemovalResult :=
  ArchiveModule.archive_removal self.extension self.dest (self.number.getD 0)
    self.module.fragile d

/-- `pick_handler` (src/archive.py:198-205): instantiate the classes in the
fixed order `[ZipArchive, TgzArchive, TarBzip, TarXz, TarArchive]` and return
the first whose `archive_check` accepts the requested type; `none` models the
`module.fail_json` fall-through. -/
def pick_handler (src dest arch_type archive : String) (number : Option Int)
    (module : ModuleEnv) : Option Handler :=
  let handlers := [ZipArchive.init src dest archive number module,
                   TgzArchive.init src dest archive number module,
                   TarBzip.init src dest archive number module,
                   TarXz.init src dest archive number module,
                   TarArchive.init src dest archive number module]
  handlers.find? (fun obj => obj.archive_check arch_type)

/-- The message of the `fail_json` call at src/archive.py:204-205.  It is a
fixed string: the requested format does not appear in it. -/
def noHandlerMsg : String :=
  "Failed to find handler to archive. Make sure the required command to extract the file is installed."

/-- `os.path.dirname` (posixpath): everything up to the last `/`, with
trailing slashes stripped unless the head is all slashes. -/
def dirname (p : String) : String :=
  let head := (p.data.reverse.dropWhile (fun c => c != '/')).reverse
  if head.isEmpty || head.all (fun c => c == '/') then ⟨head⟩
  else ⟨(head.reverse.dropWhile (fun c => c == '/')).reverse⟩

/-- A wall-clock instant as read by `datetime.datetime.now()`. -/
structure DateTime where
  day : Nat
  month : Nat
  year : Nat
  hour : Nat
  minute : Nat
  second : Nat
deriving Repr, DecidableEq

/-- Zero-padded two-digit rendering used by `%d`, `%m`, `%H`, `%M`. -/
def pad2 (n : Nat) : String :=
  if n < 10 then "0" ++ toString n else toString n

/-- `datetime.datetime.strftime(now, '%d-%m-%Y-%H-%M-%-S')`
(src/archive.py:243): day-month-year-hour-minute-second, the seconds
unpadded (`%-S`). -/
def strftime_dmyhms (t : DateTime) : String :=
  pad2 t.day ++ "-" ++ pad2 t.month ++ "-" ++ toString t.year ++ "-"
    ++ pad2 t.hour ++ "-" ++ pad2 t.minute ++ "-" ++ toString t.second

/-- The module's input parameters (its `argument_spec`). -/
structure Params where
  src : String
  dest : String
  archive : String
  number : Option Int
  arch_type : String

/-- Python truthiness of the optional integer `number`: `None` and `0` are
falsy. -/
def truthyInt : Option Int → Bool
  | none => false
  | some n => n != 0

/-- The `res_args` dict accumulated by `main`. -/
structure ResArgs where
  handler : String
  dest : String
  src : String
  archive : String
  archive_results : Option ArchResult
  archive_removal_results : Option RemovalResult
  changed : Bool
deriving Repr, DecidableEq

/-- `handler.__class__.__name__`. -/
def handlerName : HandlerKind → String
  | .ZipArchive => "ZipArchive"
  | .TgzArchive => "TgzArchive"
  | .TarBzip => "TarBzip"
  | .TarXz => "TarXz"
  | .TarArchive => "TarArchive"

/-- How a run of `main` terminates: `module.exit_json(**res_args)`,
`module.fail_json(msg=...)`, or an uncaught Python exception. -/
inductive MainResult
  | exit_json : ResArgs → MainResult
  | fail_json : String → MainResult
  | py_error : String → MainResult
deriving Repr, DecidableEq

/-- Did the run report success (`module.exit_json`)? -/
def MainResult.isExit : MainResult → Bool
  | .exit_json _ => true
  | _ => false

/-- The `changed` flag of a successful run. -/
def MainResult.changedFlag : MainResult → Bool
  | .exit_json r => r.changed
  | _ => false

/-- The external tool, on exit code 0, leaves one new file named
`archive` in the destination directory (overwriting any previous file of
that name), stamped with the current filesystem time. -/
def createFile (d : DestDir) (name : String) (mtime : Nat) : DestDir :=
  ⟨d.files.filter (fun e => e.1 != name) ++ [(name, mtime)]⟩

/-- `main` (src/archive.py:208-266), threading the destination-directory
state.  Points of note, each translated as the source has it:

* the four validation checks fail with their respective messages;
* `if not number:` (src/archive.py:238) — in that branch line 239 calls
  `pick_handler(src, dest, arch_type, archive, module)` with five arguments
  although `pick_handler` (line 198) requires six, so every run without a
  retention count dies with an uncaught `TypeError`, modelled as `py_error`;
* with retention requested, the archive name is the strftime stamp,
  a dash, and the user-supplied name (src/archive.py:242-244);
* a non-zero `rc` from `archive_dir` becomes
  `fail_json("failed to archive <src> to <dest>")` and the retention pass is
  never reached (src/archive.py:248-253);
* otherwise `changed=True` is recorded, `archive_removal` runs (its dict,
  error message included, is attached to the result, never failing the run),
  and `exit_json` reports the result (src/archive.py:254-266). -/
def main (module : ModuleEnv) (params : Params) (now : DateTime)
    (d : DestDir) : MainResult × DestDir :=
  let src := module.expanduser params.src
  let dest := module.expanduser params.dest
  let number := params.number
  let arch_type := params.arch_type
  let archive := params.archive
  if !(module.pathExists src) then
    (.fail_json ("Source '" ++ src ++ "' does not exist"), d)
  else if !(module.readable src) then
    (.fail_json ("Source '" ++ src ++ "' not readable"), d)
  else if !(module.pathExists (dirname dest)) then
    (.fail_json ("Destination directory '" ++ dirname dest ++ "' does not exist"), d)
  else if !(module.writable (dirname dest)) then
    (.fail_json ("Destination '" ++ dirname dest ++ "' not writable"), d)
  else if !(truthyInt number) then
    (.py_error "pick_handler() takes exactly 6 arguments (5 given)", d)
  else
    let archive_tstmp := strftime_dmyhms now ++ "-" ++ archive
    match pick_handler src dest arch_type archive_tstmp number module with
    | none => (.fail_json noHandlerMsg, d)
    | some handler =>
      let res0 : ResArgs :=
        { handler := handlerName handler.kind, dest := dest, src := src,
          archive := archive, archive_results := none,
          archive_removal_results := none, changed := false }
      let ar := handler.archive_dir
      let d1 := if ar.rc == 0 then createFile d handler.archive module.archiveMtime else d
      let res1 := { res0 with archive_results := some ar }
      if ar.rc != 0 then
        (.fail_json ("failed to archive " ++ src ++ " to " ++ dest), d1)
      else
        let res2 := { res1 with changed := true }
        let step := handler.archive_removal d1
        (.exit_json { res2 with archive_removal_results := some step.2,
                                changed := true }, step.1)

/-! ### Concrete fixtures

Sample hosts, parameter sets, clock readings and directory states used by
the witnesses and counterexamples below. -/

/-- A host with `tar` and `zip` on the search path and an archiving tool
that always exits 0. -/
def envTools : ModuleEnv :=
  { binPath := fun s =>
      if s == "tar" then some "/usr/bin/tar"
      else if s == "zip" then some "/usr/bin/zip" else none,
    runCommand := fun _ => (0, "", ""),
    pathExists := fun _ => true, readable := fun _ => true,
    writable := fun _ => true, expanduser := fun s => s,
    fragile := fun _ => false, archiveMtime := 100 }

/-- A host with only `tar` on the search path. -/
def envNoZip : ModuleEnv :=
  { envTools with binPath := fun s => if s == "tar" then some "/usr/bin/tar" else none }

/-- A host whose archiving tool exits with code 2. -/
def envRcFail : ModuleEnv :=
  { envNoZip with runCommand := fun _ => (2, "", "tar: error") }

/-- A host on which removing `/backups/a.tar.gz` raises. -/
def envFragile : ModuleEnv :=
  { envNoZip with fragile := fun p => p == "/backups/a.tar.gz" }

/-- A destination directory with three `.tar.gz` archives of ages 1 < 2 < 3. -/
def dABC : DestDir :=
  ⟨[("a.tar.gz", 1), ("b.tar.gz", 2), ("c.tar.gz", 3)]⟩

/-- A clock reading. -/
def t0 : DateTime := ⟨14, 3, 2021, 10, 30, 45⟩

/-- The end-to-end scenario of the spec, without retention. -/
def pNoNum : Params :=
  { src := "/data/project", dest := "/backups", archive := "project.tar.gz",
    number := none, arch_type := "tgz" }

/-- The same scenario with retention count 3. -/
def pRet : Params := { pNoNum with number := some 3 }

/-- A request for the `zip` format with retention count 5. -/
def pZip : Params := { pNoNum with number := some 5, arch_type := "zip" }

/-! ### Basic lemmas about the embedding -/

/-- Python's `in` on strings is substring containment: `listSubstr` decides
`List.IsInfix`. -/
theorem listSubstr_iff (n : List Char) : ∀ h : List Char, listSubstr n h = true ↔ n <:+: h
  | [] => by
    simp only [listSubstr, List.isEmpty_iff, List.infix_nil]
  | c :: t => by
    simp only [listSubstr, Bool.or_eq_true, List.isPrefixOf_iff_prefix,
      listSubstr_iff n t, List.infix_cons_iff]

/-- `strIn` decides substring containment of the character lists. -/
theorem strIn_iff (needle hay : String) :
    strIn needle hay = true ↔ needle.data <:+: hay.data :=
  listSubstr_iff needle.data hay.data

/-- Joining distinct names to the same directory yields distinct paths. -/
theorem os_path_join_inj {dir a b : String}
    (h : os_path_join dir a = os_path_join dir b) : a = b := by
  unfold os_path_join at h
  have h2 := congrArg String.data h
  simp only [String.data_append, List.append_assoc] at h2
  exact String.ext (List.append_cancel_left (List.append_cancel_left h2))

/-- Projecting the filenames out of a filtered listing. -/
theorem map_fst_filter (q : String → Bool) :
    ∀ l : List (String × Nat),
      (l.filter (fun e => q e.1)).map Prod.fst = (l.map Prod.fst).filter q
  | [] => rfl
  | e :: t => by
    by_cases h : q e.1 <;>
      simp [List.filter_cons, h, map_fst_filter q t]

/-- When no removal fails, the loop is a plain left fold of `os.remove`. -/
theorem removeLoop_clean (dest : String) (fragile : String → Bool)
    (hf : ∀ p, fragile p = false) :
    ∀ (ps : List String) (d : DestDir),
      removeLoop dest fragile d ps = (ps.foldl (os_remove dest) d, none)
  | [], _ => rfl
  | p :: ps, d => by
    simp [removeLoop, hf p, removeLoop_clean dest fragile hf ps]

/-- Removing a batch of paths filters the directory down to the files whose
full path is not in the batch. -/
theorem foldl_os_remove_files (dest : String) :
    ∀ (ps : List String) (d : DestDir),
      (ps.foldl (os_remove dest) d).files
        = d.files.filter (fun e => !(ps.contains (os_path_join dest e.1)))
  | [], d => by simp [List.contains]
  | p :: ps, d => by
    rw [List.foldl_cons, foldl_os_remove_files dest ps]
    unfold os_remove
    rw [List.filter_filter]
    congr 1
    funext e
    rw [List.contains_cons]
    cases hp : (os_path_join dest e.1 == p) <;>
      cases hc : ps.contains (os_path_join dest e.1) <;>
        simp [bne, hp, hc]

/-- Sorting does not change the number of entries: the `filedata_sorted`
list of `archive_removal` has one path per matching archive. -/
theorem sortedPathsOf_length (extension dest : String) (d : DestDir) :
    (sortedPathsOf extension dest d).length = (archivesOf extension d).length := by
  simp [sortedPathsOf, sortedByValue, List.length_insertionSort, filedataOf]

/-- The body of `archive_removal` with its `let` bindings substituted and
the intermediate lists written through their named projections. -/
theorem archive_removal_def (extension dest : String) (number : Int)
    (fragile : String → Bool) (d : DestDir) :
    archive_removal extension dest number fragile d =
      (if ((sortedPathsOf extension dest d).length : Int) > number then
        match removeLoop dest fragile d ((sortedPathsOf extension dest d).take
            ((((sortedPathsOf extension dest d).length : Int) - number).toNat)) with
        | (d2, some e) => (d2, { err := some e, out := archivesOf extension d })
        | (d2, none) =>
          (d2, { err := none, out := (os_listdir d2).filter (fun a => strIn extension a) })
      else (d, { err := none, out := archivesOf extension d })) := rfl

/-- Below the retention count, `archive_removal` deletes nothing and
reports the matching archives. -/
theorem archive_removal_guard_false (extension dest : String) (number : Int)
    (fragile : String → Bool) (d : DestDir)
    (h : ¬ (((archivesOf extension d).length : Int) > number)) :
    archive_removal extension dest number fragile d
      = (d, { err := none, out := archivesOf extension d }) := by
  rw [archive_removal_def, sortedPathsOf_length, if_neg h]

/-- Above the retention count with no removal failure, `archive_removal`
removes exactly the candidate paths: the directory keeps the files whose
full path is not a candidate, and the reported list is the matching names
among them. -/
theorem archive_removal_clean_eq (extension dest : String) (number : Int)
    (d : DestDir)
    (h : (((archivesOf extension d).length : Int) > number)) :
    archive_removal extension dest number (fun _ => false) d
      = (⟨d.files.filter (fun e =>
            !((candidatesOf extension dest number d).contains
                (os_path_join dest e.1)))⟩,
         { err := none,
           out := (archivesOf extension d).filter (fun f =>
            !((candidatesOf extension dest number d).contains
                (os_path_join dest f))) }) := by
  rw [archive_removal_def, sortedPathsOf_length, if_pos h]
  rw [show List.take ((((archivesOf extension d).length : Int) - number).toNat)
        (sortedPathsOf extension dest d) = candidatesOf extension dest number d from rfl]
  rw [removeLoop_clean dest (fun _ => false) (fun _ => rfl)]
  have hfiles := foldl_os_remove_files dest
    (candidatesOf extension dest number d) d
  have hlist : os_listdir (List.foldl (os_remove dest) d
        (candidatesOf extension dest number d))
      = (os_listdir d).filter (fun f =>
          !((candidatesOf extension dest number d).contains
              (os_path_join dest f))) := by
    show (List.foldl (os_remove dest) d _).files.map Prod.fst = _
    rw [hfiles]
    exact map_fst_filter (fun f =>
      !((candidatesOf extension dest number d).contains
          (os_path_join dest f))) d.files
  refine Prod.ext ?_ ?_
  · show (List.foldl (os_remove dest) d _) = _
    exact DestDir.ext hfiles
  · show RemovalResult.mk none _ = RemovalResult.mk none _
    congr 1
    show (os_listdir (List.foldl (os_remove dest) d _)).filter _ = _
    rw [hlist]
    rw [List.filter_filter]
    rw [show archivesOf extension d
        = (os_listdir d).filter (fun a => strIn extension a) from rfl]
    rw [List.filter_filter]
    congr 1
    funext a
    exact Bool.and_comm _ _

/-- The `sorted` output is a permutation of `filedata`. -/
theorem sortedByValue_perm (fd : List (String × Nat)) :
    (sortedByValue fd).Perm fd :=
  List.perm_insertionSort valueLe fd

/-- `sorted` output is ordered by stored modification time. -/
theorem sortedByValue_pairwise (fd : List (String × Nat)) :
    (sortedByValue fd).Pairwise valueLe :=
  List.sorted_insertionSort valueLe fd

/-- `contains` on string lists decides membership. -/
theorem contains_iff_mem {l : List String} {a : String} :
    l.contains a = true ↔ a ∈ l :=
  List.elem_iff

/-- In a strictly value-sorted pair list, the number of entries of smaller
value than the entry at a given position is exactly that position. -/
theorem countP_lt_of_split {u v : List (String × Nat)} {q : String × Nat}
    (hstrict : (u ++ q :: v).Pairwise (fun a b => a.2 < b.2)) :
    (u ++ q :: v).countP (fun a => decide (a.2 < q.2)) = u.length := by
  rcases List.pairwise_append.1 hstrict with ⟨_, hqv, hcross⟩
  rw [List.countP_append, List.countP_cons]
  have h1 : u.countP (fun a => decide (a.2 < q.2)) = u.length :=
    List.countP_eq_length.2 (fun a ha => by
      simpa using hcross a ha q (List.mem_cons_self q v))
  have h2 : v.countP (fun a => decide (a.2 < q.2)) = 0 :=
    List.countP_eq_zero.2 (fun a ha => by
      have hlt := (List.pairwise_cons.1 hqv).1 a ha
      simp only [decide_eq_true_eq]
      omega)
  simp [h1, h2]

/-- Entries in the kept prefix of a strictly sorted list have rank below
the cut. -/
theorem rank_lt_of_mem_take {s : List (String × Nat)} {q : String × Nat}
    {del : Nat}
    (hstrict : s.Pairwise (fun a b => a.2 < b.2))
    (hdel : del ≤ s.length)
    (hq : q ∈ s.take del) :
    s.countP (fun a => decide (a.2 < q.2)) < del := by
  rcases List.append_of_mem hq with ⟨u, v, huv⟩
  have hs : s = u ++ q :: (v ++ s.drop del) := by
    conv_lhs => rw [← List.take_append_drop del s, huv]
    simp
  rw [hs] at hstrict ⊢
  rw [countP_lt_of_split hstrict]
  have hlen := congrArg List.length huv
  rw [List.length_take] at hlen
  simp only [List.length_append, List.length_cons] at hlen
  omega

/-- Entries in the dropped suffix of a strictly sorted list have rank at or
above the cut. -/
theorem rank_ge_of_mem_drop {s : List (String × Nat)} {q : String × Nat}
    {del : Nat}
    (hstrict : s.Pairwise (fun a b => a.2 < b.2))
    (hdel : del ≤ s.length)
    (hq : q ∈ s.drop del) :
    del ≤ s.countP (fun a => decide (a.2 < q.2)) := by
  rcases List.append_of_mem hq with ⟨u, v, huv⟩
  have hs : s = (s.take del ++ u) ++ q :: v := by
    conv_lhs => rw [← List.take_append_drop del s, huv]
    simp
  rw [hs] at hstrict ⊢
  rw [countP_lt_of_split hstrict]
  simp only [List.length_append, List.length_take]
  omega

/-- A directory listing counts each candidate path once: entries of the
sorted pair list surviving the cut are exactly `length - del` many, given
the prefix and suffix cannot share an entry and paths identify entries. -/
theorem countP_surviving {s : List (String × Nat)} {del : Nat}
    {c : List String} (hc : c = (s.take del).map Prod.fst)
    (hdis : ∀ q, q ∈ s.take del → q ∈ s.drop del → False)
    (hfst : ∀ q q', q ∈ s → q' ∈ s → q.1 = q'.1 → q = q') :
    s.countP (fun q => !(c.contains q.1)) = s.length - del := by
  have hsplit := List.take_append_drop del s
  conv_lhs => rw [← hsplit]
  rw [List.countP_append]
  have h0 : (s.take del).countP (fun q => !(c.contains q.1)) = 0 :=
    List.countP_eq_zero.2 (fun q hq => by
      have hmem : q.1 ∈ c := hc ▸ List.mem_map_of_mem Prod.fst hq
      have hcont : c.contains q.1 = true := contains_iff_mem.2 hmem
      rw [hcont]
      simp)
  have h1 : (s.drop del).countP (fun q => !(c.contains q.1))
      = (s.drop del).length :=
    List.countP_eq_length.2 (fun q hq => by
      rw [Bool.not_eq_true']
      cases hcont : c.contains q.1 with
      | false => rfl
      | true =>
        exfalso
        rw [hc] at hcont
        rcases List.mem_map.1 (contains_iff_mem.1 hcont) with ⟨q', hq', hfsteq⟩
        have hq'mem : q' ∈ s := List.mem_of_mem_take hq'
        have hqmem : q ∈ s := List.mem_of_mem_drop hq
        have : q' = q := hfst q' q hq'mem hqmem hfsteq
        exact hdis q (this ▸ hq') hq)
  rw [h0, h1, List.length_drop]
  omega

/-- The `(path, mtime)` entry of one matching archive belongs to
`filedata`. -/
theorem mem_filedataOf {extension dest : String} {d : DestDir} {f : String}
    (hf : f ∈ archivesOf extension d) :
    (os_path_join dest f, os_stat_mtime d f) ∈ filedataOf extension dest d :=
  List.mem_map_of_mem _ hf

/-- Within `filedata`, the full path determines the entry. -/
theorem filedataOf_fst_inj {extension dest : String} {d : DestDir}
    {q q' : String × Nat}
    (hq : q ∈ filedataOf extension dest d)
    (hq' : q' ∈ filedataOf extension dest d)
    (h : q.1 = q'.1) : q = q' := by
  rcases List.mem_map.1 hq with ⟨f, _, rfl⟩
  rcases List.mem_map.1 hq' with ⟨f', _, rfl⟩
  have : f = f' := os_path_join_inj h
  rw [this]

/-- `filedata` has one entry per matching archive. -/
theorem filedataOf_length (extension dest : String) (d : DestDir) :
    (filedataOf extension dest d).length = (archivesOf extension d).length :=
  List.length_map _ _

/-- The deletion-candidate list is the kept prefix of the sorted pairs,
projected to paths. -/
theorem candidatesOf_eq_map_take (extension dest : String) (number : Int)
    (d : DestDir) :
    candidatesOf extension dest number d
      = ((sortedByValue (filedataOf extension dest d)).take
          ((((archivesOf extension d).length : Int) - number).toNat)).map
          Prod.fst := by
  unfold candidatesOf sortedPathsOf
  rw [List.map_take]

/-- For a matching archive, its path is a deletion candidate exactly when
its `filedata` entry lies in the excess prefix of the sorted pairs. -/
theorem contains_candidatesOf_iff {extension dest : String} {number : Int}
    {d : DestDir} {f : String} (hf : f ∈ archivesOf extension d) :
    ((candidatesOf extension dest number d).contains (os_path_join dest f)
        = true)
      ↔ (os_path_join dest f, os_stat_mtime d f)
          ∈ (sortedByValue (filedataOf extension dest d)).take
              ((((archivesOf extension d).length : Int) - number).toNat) := by
  rw [candidatesOf_eq_map_take, contains_iff_mem]
  constructor
  · intro hmem
    rcases List.mem_map.1 hmem with ⟨q, hq, hfsteq⟩
    have hqs : q ∈ sortedByValue (filedataOf extension dest d) :=
      List.mem_of_mem_take hq
    have hqfd : q ∈ filedataOf extension dest d :=
      (sortedByValue_perm _).mem_iff.1 hqs
    have : q = (os_path_join dest f, os_stat_mtime d f) :=
      filedataOf_fst_inj hqfd (mem_filedataOf hf) hfsteq
    exact this ▸ hq
  · intro hmem
    exact List.mem_map_of_mem Prod.fst hmem

/-- With pairwise-distinct modification times, the sorted `filedata` is
strictly increasing in its stored times. -/
theorem sorted_strict_of_distinct {extension dest : String} {d : DestDir}
    (Hdist : (archivesOf extension d).Pairwise
      (fun a b => os_stat_mtime d a ≠ os_stat_mtime d b)) :
    (sortedByValue (filedataOf extension dest d)).Pairwise
      (fun a b => a.2 < b.2) := by
  have hfd : (filedataOf extension dest d).Pairwise (fun a b => a.2 ≠ b.2) := by
    unfold filedataOf
    exact (List.pairwise_map).2 Hdist
  have hs_ne : (sortedByValue (filedataOf extension dest d)).Pairwise
      (fun a b => a.2 ≠ b.2) :=
    (List.Perm.pairwise_iff (fun h => h.symm)
      (sortedByValue_perm (filedataOf extension dest d))).2 hfd
  have hs_le := sortedByValue_pairwise (filedataOf extension dest d)
  exact (hs_le.and hs_ne).imp (fun h => lt_of_le_of_ne h.1 h.2)

/-! ### The claims -/

/-- C1: for a destination directory whose matching archives have
pairwise-distinct modification times and a retention count `0 < N < k`,
`archive_removal` (with no removal failure) deletes exactly the `k − N`
oldest matching files, keeps exactly the `N` most recent ones, and returns
the post-deletion listing of length `N`: a matching file survives — in the
directory and in the reported list — precisely when at least `k − N`
matching files are older than it, and every deleted file is older than
every kept one. -/
theorem c1_retention_prunes_oldest (extension dest : String) (d : DestDir)
    (N : Nat) (d2 : DestDir) (r : RemovalResult)
    (Hdist : (archivesOf extension d).Pairwise
      (fun a b => os_stat_mtime d a ≠ os_stat_mtime d b))
    (HN : 0 < N) (Hk : N < (archivesOf extension d).length)
    (hrun : archive_removal extension dest (N : Int) (fun _ => false) d
      = (d2, r)) :
    r.err = none
    ∧ r.out.length = N
    ∧ (∀ f ∈ archivesOf extension d,
        f ∈ r.out ↔
          (archivesOf extension d).length - N ≤
            (archivesOf extension d).countP
              (fun a => decide (os_stat_mtime d a < os_stat_mtime d f)))
    ∧ (∀ f ∈ archivesOf extension d, (f ∈ os_listdir d2 ↔ f ∈ r.out))
    ∧ (∀ f ∈ archivesOf extension d, ∀ g ∈ archivesOf extension d,
        f ∉ r.out → g ∈ r.out →
          os_stat_mtime d f < os_stat_mtime d g) := by
  have hguard : (((archivesOf extension d).length : Int) > (N : Int)) := by
    exact_mod_cast Hk
  rw [archive_removal_clean_eq extension dest (N : Int) d hguard] at hrun
  injection hrun with hd2 hr
  subst hd2
  subst hr
  have hperm := sortedByValue_perm (filedataOf extension dest d)
  have hdelI : ((((archivesOf extension d).length : Int) - (N : Int)).toNat)
      = (archivesOf extension d).length - N := Int.toNat_sub _ _
  have hslen : (sortedByValue (filedataOf extension dest d)).length
      = (archivesOf extension d).length :=
    hperm.length_eq.trans (filedataOf_length extension dest d)
  have hdel_le : ((((archivesOf extension d).length : Int) - (N : Int)).toNat)
      ≤ (sortedByValue (filedataOf extension dest d)).length := by omega
  have hstrict := @sorted_strict_of_distinct extension dest d Hdist
  have hfst : ∀ q q', q ∈ sortedByValue (filedataOf extension dest d)
      → q' ∈ sortedByValue (filedataOf extension dest d)
      → q.1 = q'.1 → q = q' := fun q q' hq hq' h =>
    filedataOf_fst_inj (hperm.mem_iff.1 hq) (hperm.mem_iff.1 hq') h
  have hdis : ∀ q,
      q ∈ (sortedByValue (filedataOf extension dest d)).take
        (((((archivesOf extension d).length : Int) - (N : Int))).toNat)
      → q ∈ (sortedByValue (filedataOf extension dest d)).drop
        (((((archivesOf extension d).length : Int) - (N : Int))).toNat)
      → False := fun q hqt hqd => by
    have h1 := rank_lt_of_mem_take hstrict hdel_le hqt
    have h2 := rank_ge_of_mem_drop hstrict hdel_le hqd
    omega
  have hrank : ∀ f,
      (sortedByValue (filedataOf extension dest d)).countP
          (fun a => decide (a.2 < os_stat_mtime d f))
        = (archivesOf extension d).countP
            (fun a => decide (os_stat_mtime d a < os_stat_mtime d f)) := by
    intro f
    rw [List.Perm.countP_eq _ hperm]
    show List.countP _ (List.map _ _) = _
    rw [List.countP_map]
    rfl
  have hmem_iff : ∀ f ∈ archivesOf extension d,
      (f ∈ (archivesOf extension d).filter (fun f =>
          !((candidatesOf extension dest (N : Int) d).contains
              (os_path_join dest f)))
        ↔ ¬ ((os_path_join dest f, os_stat_mtime d f)
          ∈ (sortedByValue (filedataOf extension dest d)).take
              (((((archivesOf extension d).length : Int) - (N : Int))).toNat))) := by
    intro f hf
    rw [List.mem_filter]
    constructor
    · intro h
      have hcontains := h.2
      rw [Bool.not_eq_true', ← Bool.not_eq_true] at hcontains
      exact fun hmem =>
        hcontains ((contains_candidatesOf_iff hf).2 hmem)
    · intro h
      refine ⟨hf, ?_⟩
      rw [Bool.not_eq_true', ← Bool.not_eq_true]
      exact fun hc => h ((contains_candidatesOf_iff hf).1 hc)
  have hpair_mem : ∀ f ∈ archivesOf extension d,
      (os_path_join dest f, os_stat_mtime d f)
        ∈ sortedByValue (filedataOf extension dest d) := fun f hf =>
    hperm.mem_iff.2 (mem_filedataOf hf)
  refine ⟨rfl, ?_, ?_, ?_, ?_⟩
  · -- the reported listing has length N
    show ((archivesOf extension d).filter _).length = N
    rw [← List.countP_eq_length_filter]
    rw [show (archivesOf extension d).countP (fun f =>
          !((candidatesOf extension dest (N : Int) d).contains
              (os_path_join dest f)))
        = (filedataOf extension dest d).countP (fun q =>
            !((candidatesOf extension dest (N : Int) d).contains q.1)) from by
      unfold filedataOf
      rw [List.countP_map]
      rfl]
    rw [← List.Perm.countP_eq _ hperm]
    rw [countP_surviving (candidatesOf_eq_map_take extension dest (N : Int) d)
      hdis hfst]
    omega
  · -- survival is having at least k − N older matching files
    intro f hf
    rw [hmem_iff f hf]
    have hsplit := List.take_append_drop
      (((((archivesOf extension d).length : Int) - (N : Int))).toNat)
      (sortedByValue (filedataOf extension dest d))
    constructor
    · intro hnotin
      have hmem : (os_path_join dest f, os_stat_mtime d f)
          ∈ (sortedByValue (filedataOf extension dest d)).take
              (((((archivesOf extension d).length : Int) - (N : Int))).toNat)
            ++ (sortedByValue (filedataOf extension dest d)).drop
              (((((archivesOf extension d).length : Int) - (N : Int))).toNat) := by
        rw [hsplit]; exact hpair_mem f hf
      rcases List.mem_append.1 hmem with h | h
      · exact absurd h hnotin
      · have := rank_ge_of_mem_drop hstrict hdel_le h
        rw [hrank f] at this
        omega
    · intro hge hin
      have := rank_lt_of_mem_take hstrict hdel_le hin
      rw [hrank f] at this
      omega
  · -- a matching file is in the directory afterwards iff it is reported
    intro f hf
    have hlist : os_listdir (DestDir.mk (d.files.filter (fun e =>
        !((candidatesOf extension dest (N : Int) d).contains
            (os_path_join dest e.1)))))
        = (os_listdir d).filter (fun f =>
            !((candidatesOf extension dest (N : Int) d).contains
                (os_path_join dest f))) :=
      map_fst_filter (fun f =>
        !((candidatesOf extension dest (N : Int) d).contains
            (os_path_join dest f))) d.files
    rw [hlist, List.mem_filter, List.mem_filter]
    have hfl : f ∈ os_listdir d := (List.mem_filter.1 hf).1
    constructor
    · intro h
      exact ⟨hf, h.2⟩
    · intro h
      exact ⟨hfl, h.2⟩
  · -- every deleted matching file is older than every kept one
    intro f hf g hg hfout hgout
    have hftake : (os_path_join dest f, os_stat_mtime d f)
        ∈ (sortedByValue (filedataOf extension dest d)).take
            (((((archivesOf extension d).length : Int) - (N : Int))).toNat) := by
      by_contra hc
      exact hfout ((hmem_iff f hf).2 hc)
    have hgdrop : (os_path_join dest g, os_stat_mtime d g)
        ∈ (sortedByValue (filedataOf extension dest d)).drop
            (((((archivesOf extension d).length : Int) - (N : Int))).toNat) := by
      have hnot := (hmem_iff g hg).1 hgout
      have hmem : (os_path_join dest g, os_stat_mtime d g)
          ∈ (sortedByValue (filedataOf extension dest d)).take
              (((((archivesOf extension d).length : Int) - (N : Int))).toNat)
            ++ (sortedByValue (filedataOf extension dest d)).drop
              (((((archivesOf extension d).length : Int) - (N : Int))).toNat) := by
        rw [List.take_append_drop]; exact hpair_mem g hg
      rcases List.mem_append.1 hmem with h | h
      · exact absurd h hnot
      · exact h
    have hsp : ((sortedByValue (filedataOf extension dest d)).take
          (((((archivesOf extension d).length : Int) - (N : Int))).toNat)
        ++ (sortedByValue (filedataOf extension dest d)).drop
          (((((archivesOf extension d).length : Int) - (N : Int))).toNat)).Pairwise
        (fun a b => a.2 < b.2) := by
      rw [List.take_append_drop]; exact hstrict
    exact (List.pairwise_append.1 hsp).2.2 _ hftake _ hgdrop

/-- Witness for C1: three archives of ages 1 < 2 < 3, retention 1: the two
oldest are deleted, `c.tar.gz` remains. -/
theorem c1_retention_prunes_oldest_witness :
    (archivesOf ".tar.gz" dABC).Pairwise
      (fun a b => os_stat_mtime dABC a ≠ os_stat_mtime dABC b)
    ∧ 0 < 1 ∧ 1 < (archivesOf ".tar.gz" dABC).length
    ∧ ((archive_removal ".tar.gz" "/backups" ((1 : Nat) : Int)
          (fun _ => false) dABC).2.err = none
      ∧ (archive_removal ".tar.gz" "/backups" ((1 : Nat) : Int)
          (fun _ => false) dABC).2.out.length = 1
      ∧ (∀ f ∈ archivesOf ".tar.gz" dABC,
          f ∈ (archive_removal ".tar.gz" "/backups" ((1 : Nat) : Int)
              (fun _ => false) dABC).2.out ↔
            (archivesOf ".tar.gz" dABC).length - 1 ≤
              (archivesOf ".tar.gz" dABC).countP
                (fun a => decide (os_stat_mtime dABC a < os_stat_mtime dABC f)))
      ∧ (∀ f ∈ archivesOf ".tar.gz" dABC,
          (f ∈ os_listdir (archive_removal ".tar.gz" "/backups" ((1 : Nat) : Int)
              (fun _ => false) dABC).1 ↔
            f ∈ (archive_removal ".tar.gz" "/backups" ((1 : Nat) : Int)
              (fun _ => false) dABC).2.out))
      ∧ (∀ f ∈ archivesOf ".tar.gz" dABC, ∀ g ∈ archivesOf ".tar.gz" dABC,
          f ∉ (archive_removal ".tar.gz" "/backups" ((1 : Nat) : Int)
              (fun _ => false) dABC).2.out →
          g ∈ (archive_removal ".tar.gz" "/backups" ((1 : Nat) : Int)
              (fun _ => false) dABC).2.out →
            os_stat_mtime dABC f < os_stat_mtime dABC g)) :=
  ⟨by decide, by decide, by decide,
    c1_retention_prunes_oldest ".tar.gz" "/backups" dABC 1
      (archive_removal ".tar.gz" "/backups" ((1 : Nat) : Int)
        (fun _ => false) dABC).1
      (archive_removal ".tar.gz" "/backups" ((1 : Nat) : Int)
        (fun _ => false) dABC).2
      (by decide) (by decide) (by decide) rfl⟩

/-- C10: rotation is idempotent.  With a duplicate-free directory listing
and no removal failures, running `archive_removal` twice with the same
retention count deletes nothing on the second run (the directory state is
unchanged) and reports the same remaining-archives list. -/
theorem c10_rotation_idempotent (extension dest : String) (N : Nat)
    (d : DestDir) (Hnodup : (os_listdir d).Nodup)
    (d1 d2 : DestDir) (r1 r2 : RemovalResult)
    (h1 : archive_removal extension dest (N : Int) (fun _ => false) d
      = (d1, r1))
    (h2 : archive_removal extension dest (N : Int) (fun _ => false) d1
      = (d2, r2)) :
    d2 = d1 ∧ r2.out = r1.out ∧ r2.err = none := by
  by_cases hguard : (((archivesOf extension d).length : Int) > (N : Int))
  · rw [archive_removal_clean_eq extension dest (N : Int) d hguard] at h1
    injection h1 with hd1 hr1
    subst hd1
    subst hr1
    have hperm := sortedByValue_perm (filedataOf extension dest d)
    have hldup : (archivesOf extension d).Nodup := Hnodup.filter _
    have hfddup : (filedataOf extension dest d).Nodup :=
      hldup.map_on (fun x _ y _ hxy => by
        have := congrArg Prod.fst hxy
        exact os_path_join_inj this)
    have hsdup : (sortedByValue (filedataOf extension dest d)).Nodup :=
      hperm.nodup_iff.2 hfddup
    have hdis : ∀ q,
        q ∈ (sortedByValue (filedataOf extension dest d)).take
          (((((archivesOf extension d).length : Int) - (N : Int))).toNat)
        → q ∈ (sortedByValue (filedataOf extension dest d)).drop
          (((((archivesOf extension d).length : Int) - (N : Int))).toNat)
        → False := fun q hqt hqd =>
      (List.disjoint_take_drop hsdup (Nat.le_refl _)) hqt hqd
    have hfst : ∀ q q', q ∈ sortedByValue (filedataOf extension dest d)
        → q' ∈ sortedByValue (filedataOf extension dest d)
        → q.1 = q'.1 → q = q' := fun q q' hq hq' h =>
      filedataOf_fst_inj (hperm.mem_iff.1 hq) (hperm.mem_iff.1 hq') h
    have harch1 : archivesOf extension
        (DestDir.mk (d.files.filter (fun e =>
          !((candidatesOf extension dest (N : Int) d).contains
              (os_path_join dest e.1)))))
        = (archivesOf extension d).filter (fun f =>
            !((candidatesOf extension dest (N : Int) d).contains
                (os_path_join dest f))) := by
      show (os_listdir _).filter _ = _
      rw [show os_listdir (DestDir.mk (d.files.filter (fun e =>
            !((candidatesOf extension dest (N : Int) d).contains
                (os_path_join dest e.1)))))
          = (os_listdir d).filter (fun f =>
              !((candidatesOf extension dest (N : Int) d).contains
                  (os_path_join dest f))) from
        map_fst_filter (fun f =>
          !((candidatesOf extension dest (N : Int) d).contains
              (os_path_join dest f))) d.files]
      rw [List.filter_filter]
      rw [show archivesOf extension d
          = (os_listdir d).filter (fun a => strIn extension a) from rfl]
      rw [List.filter_filter]
      congr 1
      funext a
      exact Bool.and_comm _ _
    have hslen : (sortedByValue (filedataOf extension dest d)).length
        = (archivesOf extension d).length :=
      hperm.length_eq.trans (filedataOf_length extension dest d)
    have hdelI : ((((archivesOf extension d).length : Int) - (N : Int)).toNat)
        = (archivesOf extension d).length - N := Int.toNat_sub _ _
    have hkN : N < (archivesOf extension d).length := by exact_mod_cast hguard
    have hlen1 : ((archivesOf extension d).filter (fun f =>
        !((candidatesOf extension dest (N : Int) d).contains
            (os_path_join dest f)))).length = N := by
      rw [← List.countP_eq_length_filter]
      rw [show (archivesOf extension d).countP (fun f =>
            !((candidatesOf extension dest (N : Int) d).contains
                (os_path_join dest f)))
          = (filedataOf extension dest d).countP (fun q =>
              !((candidatesOf extension dest (N : Int) d).contains q.1)) from by
        unfold filedataOf
        rw [List.countP_map]
        rfl]
      rw [← List.Perm.countP_eq _ hperm]
      rw [countP_surviving (candidatesOf_eq_map_take extension dest (N : Int) d)
        hdis hfst]
      omega
    have hguard2 : ¬((((archivesOf extension
        (DestDir.mk (d.files.filter (fun e =>
          !((candidatesOf extension dest (N : Int) d).contains
              (os_path_join dest e.1)))))).length : Int)) > (N : Int)) := by
      rw [harch1, hlen1]
      omega
    rw [archive_removal_guard_false extension dest (N : Int)
      (fun _ => false) _ hguard2] at h2
    injection h2 with hd2 hr2
    subst hd2
    subst hr2
    exact ⟨rfl, harch1, rfl⟩
  · rw [archive_removal_guard_false extension dest (N : Int)
      (fun _ => false) d hguard] at h1
    injection h1 with hd1 hr1
    subst hd1
    subst hr1
    rw [archive_removal_guard_false extension dest (N : Int)
      (fun _ => false) d hguard] at h2
    injection h2 with hd2 hr2
    subst hd2
    subst hr2
    exact ⟨rfl, rfl, rfl⟩

/-- Witness for C10: pruning `dABC` to one archive and pruning again —
the second pass deletes nothing and reports the same listing. -/
theorem c10_rotation_idempotent_witness :
    (os_listdir dABC).Nodup
    ∧ ((archive_removal ".tar.gz" "/backups" ((1 : Nat) : Int) (fun _ => false)
          (archive_removal ".tar.gz" "/backups" ((1 : Nat) : Int)
            (fun _ => false) dABC).1).1
        = (archive_removal ".tar.gz" "/backups" ((1 : Nat) : Int)
            (fun _ => false) dABC).1
      ∧ (archive_removal ".tar.gz" "/backups" ((1 : Nat) : Int) (fun _ => false)
          (archive_removal ".tar.gz" "/backups" ((1 : Nat) : Int)
            (fun _ => false) dABC).1).2.out
        = (archive_removal ".tar.gz" "/backups" ((1 : Nat) : Int)
            (fun _ => false) dABC).2.out
      ∧ (archive_removal ".tar.gz" "/backups" ((1 : Nat) : Int) (fun _ => false)
          (archive_removal ".tar.gz" "/backups" ((1 : Nat) : Int)
            (fun _ => false) dABC).1).2.err = none) :=
  ⟨by decide,
    c10_rotation_idempotent ".tar.gz" "/backups" 1 dABC (by decide)
      (archive_removal ".tar.gz" "/backups" ((1 : Nat) : Int)
        (fun _ => false) dABC).1
      (archive_removal ".tar.gz" "/backups" ((1 : Nat) : Int) (fun _ => false)
        (archive_removal ".tar.gz" "/backups" ((1 : Nat) : Int)
          (fun _ => false) dABC).1).1
      (archive_removal ".tar.gz" "/backups" ((1 : Nat) : Int)
        (fun _ => false) dABC).2
      (archive_removal ".tar.gz" "/backups" ((1 : Nat) : Int) (fun _ => false)
        (archive_removal ".tar.gz" "/backups" ((1 : Nat) : Int)
          (fun _ => false) dABC).1).2
      rfl rfl⟩

/-- C8: the retention pass counts a filename as an archive of the selected
format exactly when the strategy's file extension occurs anywhere in it as
a substring — not only as a suffix.  In particular `myarchive.tar.gz.bak`
is counted as a `.tar.gz` archive although `.tar.gz` is not a suffix of
it. -/
theorem c8_substring_matching :
    (∀ (d : DestDir) (extension name : String),
      name ∈ archivesOf extension d ↔
        name ∈ os_listdir d ∧ extension.data <:+: name.data)
    ∧ "myarchive.tar.gz.bak"
        ∈ archivesOf ".tar.gz" (DestDir.mk [("myarchive.tar.gz.bak", 5)])
    ∧ ¬ (".tar.gz".data <:+ "myarchive.tar.gz.bak".data) := by
  refine ⟨?_, ?_, ?_⟩
  · intro d extension name
    unfold archivesOf
    rw [List.mem_filter, strIn_iff]
  · decide
  · decide

/-- C7: the tar-family strategies match a requested tag purely by equality
with their own tag — irrespective of the host's tool table — while the zip
strategy matches exactly when the zip tool resolves and the requested tag
resolves to that same path. -/
theorem c7_match_asymmetry :
    ∀ (src dest archive : String) (number : Option Int)
      (env env' : ModuleEnv) (t : String),
      ((TgzArchive.init src dest archive number env).archive_check t
        = (t == "tgz"))
      ∧ ((TarArchive.init src dest archive number env).archive_check t
        = (t == "tar"))
      ∧ ((TarBzip.init src dest archive number env).archive_check t
        = (t == "bz2"))
      ∧ ((TarXz.init src dest archive number env).archive_check t
        = (t == "xz"))
      ∧ ((TgzArchive.init src dest archive number env).archive_check t
        = (TgzArchive.init src dest archive number env').archive_check t)
      ∧ ((TarArchive.init src dest archive number env).archive_check t
        = (TarArchive.init src dest archive number env').archive_check t)
      ∧ ((TarBzip.init src dest archive number env).archive_check t
        = (TarBzip.init src dest archive number env').archive_check t)
      ∧ ((TarXz.init src dest archive number env).archive_check t
        = (TarXz.init src dest archive number env').archive_check t)
      ∧ ((ZipArchive.init src dest archive number env).archive_check t = true
        ↔ ∃ p, env.binPath "zip" = some p ∧ env.binPath t = some p) := by
  intro src dest archive number env env' t
  refine ⟨rfl, rfl, rfl, rfl, rfl, rfl, rfl, rfl, ?_⟩
  show (match env.binPath "zip" with
    | none => false
    | some p => env.binPath t == some p) = true ↔ _
  cases hz : env.binPath "zip" with
  | none =>
    simp
  | some p =>
    simp only [beq_iff_eq]
    constructor
    · intro h
      exact ⟨p, rfl, h⟩
    · rintro ⟨q, hq, htq⟩
      rw [Option.some.injEq] at hq
      rw [htq, hq]

/-- C2: the claim's no-retention scenario cannot succeed — line 239 of the
source passes five arguments to the six-parameter `pick_handler`, so every
run without a retention count dies with a `TypeError` before any handler is
selected or any archive is created; the directory is left unchanged. -/
theorem c2_no_retention_type_error (env : ModuleEnv) (p : Params)
    (now : DateTime) (d : DestDir)
    (h1 : env.pathExists (env.expanduser p.src) = true)
    (h2 : env.readable (env.expanduser p.src) = true)
    (h3 : env.pathExists (dirname (env.expanduser p.dest)) = true)
    (h4 : env.writable (dirname (env.expanduser p.dest)) = true)
    (h5 : truthyInt p.number = false) :
    main env p now d
      = (.py_error "pick_handler() takes exactly 6 arguments (5 given)", d) := by
  simp [main, h1, h2, h3, h4, h5]

/-- Witness for C2: the spec's end-to-end scenario (`/data/project` →
`/backups`, format `tgz`, no retention) crashes with the `TypeError`. -/
theorem c2_no_retention_type_error_witness :
    main envTools pNoNum t0 (DestDir.mk [])
      = (.py_error "pick_handler() takes exactly 6 arguments (5 given)",
         DestDir.mk []) :=
  c2_no_retention_type_error envTools pNoNum t0 (DestDir.mk [])
    rfl rfl rfl rfl rfl

/-- C4 (amended): when no strategy matches the requested format — e.g. the
zip tool is absent for a `zip` request — the run stops at the handler
selection `fail_json` before any archiving attempt, the directory is left
unchanged (no archive file is created), and the failure message is the
fixed string `noHandlerMsg`, which does not name the requested format.
(The claim's `NoHandlerAvailable` failure exists, but its message never
contains the format; and a run without a retention count dies earlier with
the `TypeError` of C2.) -/
theorem c4_selection_failure_fixed_message (env : ModuleEnv) (p : Params)
    (now : DateTime) (d : DestDir)
    (h1 : env.pathExists (env.expanduser p.src) = true)
    (h2 : env.readable (env.expanduser p.src) = true)
    (h3 : env.pathExists (dirname (env.expanduser p.dest)) = true)
    (h4 : env.writable (dirname (env.expanduser p.dest)) = true)
    (h5 : truthyInt p.number = true)
    (hpick : pick_handler (env.expanduser p.src) (env.expanduser p.dest)
      p.arch_type (strftime_dmyhms now ++ "-" ++ p.archive) p.number env
      = none) :
    main env p now d = (.fail_json noHandlerMsg, d) := by
  simp [main, h1, h2, h3, h4, h5, hpick]

/-- Counterexample for C4: requesting `zip` on a host without the zip tool
fails with the fixed message; `zip` does not occur in that message, so the
failure does not name the requested format (and no file is created). -/
theorem c4_selection_failure_counterexample :
    main envNoZip pZip t0 (DestDir.mk [])
      = (.fail_json noHandlerMsg, DestDir.mk [])
    ∧ strIn "zip" noHandlerMsg = false := by
  constructor
  · decide
  · decide

/-- Witness for C4 (amended): the concrete failing `zip` request. -/
theorem c4_selection_failure_witness :
    main envNoZip pZip t0 dABC = (.fail_json noHandlerMsg, dABC) :=
  c4_selection_failure_fixed_message envNoZip pZip t0 dABC
    rfl rfl rfl rfl rfl rfl

/-- With valid paths, a retention count and a selected handler whose
archiving command exits non-zero, the run stops at the
`fail_json` of src/archive.py:251 with the source and destination paths in
the message; no file is created and the retention pass never runs. -/
theorem main_rc_fail (env : ModuleEnv) (p : Params) (now : DateTime)
    (d : DestDir) (h : Handler)
    (h1 : env.pathExists (env.expanduser p.src) = true)
    (h2 : env.readable (env.expanduser p.src) = true)
    (h3 : env.pathExists (dirname (env.expanduser p.dest)) = true)
    (h4 : env.writable (dirname (env.expanduser p.dest)) = true)
    (h5 : truthyInt p.number = true)
    (hpick : pick_handler (env.expanduser p.src) (env.expanduser p.dest)
      p.arch_type (strftime_dmyhms now ++ "-" ++ p.archive) p.number env
      = some h)
    (hrc : h.archive_dir.rc ≠ 0) :
    main env p now d
      = (.fail_json ("failed to archive " ++ env.expanduser p.src ++ " to "
          ++ env.expanduser p.dest), d) := by
  have hb : (h.archive_dir.rc == 0) = false := beq_eq_false_iff_ne.2 hrc
  have hbne : (h.archive_dir.rc != 0) = true := bne_iff_ne.2 hrc
  simp [main, h1, h2, h3, h4, h5, hpick, hb, hbne]

/-- With valid paths, a retention count, a selected handler and a zero exit
code, the run creates the file, runs the retention pass on the updated
directory, attaches its dict (error message included) to the result, and
exits successfully with `changed=True`. -/
theorem main_success (env : ModuleEnv) (p : Params) (now : DateTime)
    (d : DestDir) (h : Handler)
    (h1 : env.pathExists (env.expanduser p.src) = true)
    (h2 : env.readable (env.expanduser p.src) = true)
    (h3 : env.pathExists (dirname (env.expanduser p.dest)) = true)
    (h4 : env.writable (dirname (env.expanduser p.dest)) = true)
    (h5 : truthyInt p.number = true)
    (hpick : pick_handler (env.expanduser p.src) (env.expanduser p.dest)
      p.arch_type (strftime_dmyhms now ++ "-" ++ p.archive) p.number env
      = some h)
    (hrc : h.archive_dir.rc = 0) :
    main env p now d
      = (.exit_json
          { handler := handlerName h.kind, dest := env.expanduser p.dest,
            src := env.expanduser p.src, archive := p.archive,
            archive_results := some h.archive_dir,
            archive_removal_results := some
              (h.archive_removal (createFile d h.archive env.archiveMtime)).2,
            changed := true },
         (h.archive_removal (createFile d h.archive env.archiveMtime)).1) := by
  have hb : (h.archive_dir.rc == 0) = true := beq_iff_eq.2 hrc
  have hbne : (h.archive_dir.rc != 0) = false := by
    rw [bne_eq_false_iff_eq]
    exact hrc
  simp [main, h1, h2, h3, h4, h5, hpick, hb, hbne]

/-- C9: `archive_dir` returns the subprocess exit code in its result dict
rather than raising on a non-zero code, and the orchestrator turns any
non-zero exit code into an overall failure whose message contains the
source and destination paths; in that case the directory is untouched — in
particular the retention pass is never attempted. -/
theorem c9_nonzero_exit_is_failure :
    (∀ self : Handler,
      self.archive_dir.rc = (self.module.runCommand self.archive_dir.cmd).1)
    ∧ (∀ (env : ModuleEnv) (p : Params) (now : DateTime) (d : DestDir)
        (h : Handler),
        env.pathExists (env.expanduser p.src) = true →
        env.readable (env.expanduser p.src) = true →
        env.pathExists (dirname (env.expanduser p.dest)) = true →
        env.writable (dirname (env.expanduser p.dest)) = true →
        truthyInt p.number = true →
        pick_handler (env.expanduser p.src) (env.expanduser p.dest)
          p.arch_type (strftime_dmyhms now ++ "-" ++ p.archive) p.number env
          = some h →
        h.archive_dir.rc ≠ 0 →
        main env p now d
          = (.fail_json ("failed to archive " ++ env.expanduser p.src
              ++ " to " ++ env.expanduser p.dest), d)) := by
  constructor
  · intro self
    rfl
  · intro env p now d h h1 h2 h3 h4 h5 hpick hrc
    exact main_rc_fail env p now d h h1 h2 h3 h4 h5 hpick hrc

/-- Witness for C9: a tar run that exits with code 2 makes the whole module
fail with the path-bearing message and leaves the directory untouched. -/
theorem c9_nonzero_exit_is_failure_witness :
    main envRcFail pRet t0 dABC
      = (.fail_json "failed to archive /data/project to /backups", dABC) :=
  c9_nonzero_exit_is_failure.2 envRcFail pRet t0 dABC
    (TgzArchive.init "/data/project" "/backups"
      (strftime_dmyhms t0 ++ "-" ++ "project.tar.gz") (some 3) envRcFail)
    rfl rfl rfl rfl rfl rfl (by decide)

/-- The deletion loop up to its first failing path: the clean prefix `u` is
removed, the loop returns at `bad` with the per-file message, and the
suffix `v` is never visited. -/
theorem removeLoop_fail (dest : String) (fragile : String → Bool)
    (bad : String) (v : List String) (hbad : fragile bad = true) :
    ∀ (u : List String) (d : DestDir), (∀ p ∈ u, fragile p = false) →
      removeLoop dest fragile d (u ++ bad :: v)
        = (u.foldl (os_remove dest) d, some ("failed to remove " ++ bad))
  | [], d, _ => by simp [removeLoop, hbad]
  | p :: u, d, hu => by
    have hp : fragile p = false := hu p (List.mem_cons_self p u)
    simp only [List.cons_append, removeLoop, hp, Bool.false_eq_true,
      if_false, List.foldl_cons]
    exact removeLoop_fail dest fragile bad v hbad u (os_remove dest d p)
      (fun q hq => hu q (List.mem_cons_of_mem p hq))

/-- C5 (amended): a removal failure during rotation is caught and reported
per file, but the deletion loop returns at the first failure — candidates
after the failing one are not attempted (only the clean prefix is removed)
— and the run still returns a result carrying the pre-deletion candidate
listing; at the orchestrator level the run still exits successfully with
`changed=True` and the removal dict (error included) attached, so the
archive-creation step is never marked failed by a rotation error. -/
theorem c5_removal_failure_aborts_loop :
    (∀ (extension dest : String) (number : Int) (fragile : String → Bool)
        (d : DestDir) (u : List String) (bad : String) (v : List String),
        (((archivesOf extension d).length : Int) > number) →
        candidatesOf extension dest number d = u ++ bad :: v →
        (∀ p ∈ u, fragile p = false) →
        fragile bad = true →
        archive_removal extension dest number fragile d
          = (u.foldl (os_remove dest) d,
             { err := some ("failed to remove " ++ bad),
               out := archivesOf extension d }))
    ∧ (∀ (env : ModuleEnv) (p : Params) (now : DateTime) (d : DestDir)
        (h : Handler),
        env.pathExists (env.expanduser p.src) = true →
        env.readable (env.expanduser p.src) = true →
        env.pathExists (dirname (env.expanduser p.dest)) = true →
        env.writable (dirname (env.expanduser p.dest)) = true →
        truthyInt p.number = true →
        pick_handler (env.expanduser p.src) (env.expanduser p.dest)
          p.arch_type (strftime_dmyhms now ++ "-" ++ p.archive) p.number env
          = some h →
        h.archive_dir.rc = 0 →
        ∃ res d2, main env p now d = (.exit_json res, d2)
          ∧ res.changed = true
          ∧ res.archive_removal_results = some
              (h.archive_removal
                (createFile d h.archive env.archiveMtime)).2) := by
  constructor
  · intro extension dest number fragile d u bad v hguard hsplit hu hbad
    rw [archive_removal_def, sortedPathsOf_length, if_pos hguard]
    rw [show List.take ((((archivesOf extension d).length : Int)
          - number).toNat) (sortedPathsOf extension dest d)
        = candidatesOf extension dest number d from rfl]
    rw [hsplit]
    rw [removeLoop_fail dest fragile bad v hbad u d hu]
  · intro env p now d h h1 h2 h3 h4 h5 hpick hrc
    exact ⟨_, _, main_success env p now d h h1 h2 h3 h4 h5 hpick hrc,
      rfl, rfl⟩

/-- Counterexample for C5: three archives, retention 1, the oldest
(`/backups/a.tar.gz`) cannot be removed.  The loop stops at once: nothing
is deleted although `/backups/b.tar.gz` is also an excess candidate and is
removable, so the remaining candidates are not attempted. -/
theorem c5_removal_failure_counterexample :
    archive_removal ".tar.gz" "/backups" 1 envFragile.fragile dABC
      = (dABC, { err := some "failed to remove /backups/a.tar.gz",
                 out := ["a.tar.gz", "b.tar.gz", "c.tar.gz"] })
    ∧ "/backups/b.tar.gz" ∈ candidatesOf ".tar.gz" "/backups" 1 dABC
    ∧ envFragile.fragile "/backups/b.tar.gz" = false
    ∧ "b.tar.gz" ∈ os_listdir
        (archive_removal ".tar.gz" "/backups" 1 envFragile.fragile dABC).1 := by
  refine ⟨by decide, by decide, by decide, by decide⟩

/-- Witness for C5 (amended): the same scenario through the theorem, plus
the orchestrator-level half on a full run with the failing removal. -/
theorem c5_removal_failure_witness :
    (archive_removal ".tar.gz" "/backups" 1 envFragile.fragile dABC
      = (List.foldl (os_remove "/backups") dABC [],
         { err := some ("failed to remove " ++ "/backups/a.tar.gz"),
           out := archivesOf ".tar.gz" dABC }))
    ∧ (∃ res d2, main envFragile pRet t0 dABC = (.exit_json res, d2)
        ∧ res.changed = true
        ∧ res.archive_removal_results = some
            ((TgzArchive.init "/data/project" "/backups"
                (strftime_dmyhms t0 ++ "-" ++ "project.tar.gz") (some 3)
                envFragile).archive_removal
              (createFile dABC
                (strftime_dmyhms t0 ++ "-" ++ "project.tar.gz")
                envFragile.archiveMtime)).2) :=
  ⟨c5_removal_failure_aborts_loop.1 ".tar.gz" "/backups" 1
      envFragile.fragile dABC [] "/backups/a.tar.gz" ["/backups/b.tar.gz"]
      (by decide) (by decide) (by simp) rfl,
   c5_removal_failure_aborts_loop.2 envFragile pRet t0 dABC
      (TgzArchive.init "/data/project" "/backups"
        (strftime_dmyhms t0 ++ "-" ++ "project.tar.gz") (some 3) envFragile)
      rfl rfl rfl rfl rfl rfl (by decide)⟩

/-- C6 (amended): with retention set, the archive filename is the
day-month-year-hour-minute-second timestamp, a dash, and the user-supplied
name.  Two invocations with identical names in the same second therefore
compute the *same* filename — the second overwrites the first — though
both runs exit successfully with `changed=True`; distinct files arise only
when the rendered timestamps differ. -/
theorem c6_same_second_same_filename (env : ModuleEnv) (p : Params)
    (now : DateTime) (d : DestDir) (h : Handler)
    (h1 : env.pathExists (env.expanduser p.src) = true)
    (h2 : env.readable (env.expanduser p.src) = true)
    (h3 : env.pathExists (dirname (env.expanduser p.dest)) = true)
    (h4 : env.writable (dirname (env.expanduser p.dest)) = true)
    (h5 : truthyInt p.number = true)
    (hpick : pick_handler (env.expanduser p.src) (env.expanduser p.dest)
      p.arch_type (strftime_dmyhms now ++ "-" ++ p.archive) p.number env
      = some h)
    (hrc : ∀ c, (env.runCommand c).1 = 0) :
    h.archive = strftime_dmyhms now ++ "-" ++ p.archive
    ∧ ∃ res1 d1 res2 d2,
        main env p now d = (.exit_json res1, d1)
        ∧ main env p now d1 = (.exit_json res2, d2)
        ∧ res1.changed = true ∧ res2.changed = true := by
  have hpick' := hpick
  simp only [pick_handler] at hpick'
  have hmem := List.mem_of_find?_eq_some hpick'
  simp only [List.mem_cons, List.not_mem_nil, or_false] at hmem
  rcases hmem with rfl | rfl | rfl | rfl | rfl <;>
  · refine ⟨rfl, ?_⟩
    refine ⟨_, _, _, _,
      main_success env p now d _ h1 h2 h3 h4 h5 hpick (hrc _),
      main_success env p now _ _ h1 h2 h3 h4 h5 hpick (hrc _), rfl, rfl⟩

/-- Counterexample for C6: two runs at the identical wall-clock second with
the same archive name both succeed, but after the second run the
destination directory still holds a single file — the second invocation
overwrote the first instead of producing a distinct file. -/
theorem c6_same_second_counterexample :
    (main envNoZip pRet t0 (DestDir.mk [])).1.isExit = true
    ∧ ((main envNoZip pRet t0 (DestDir.mk [])).2).files.map Prod.fst
        = ["14-03-2021-10-30-45-project.tar.gz"]
    ∧ (main envNoZip pRet t0
        (main envNoZip pRet t0 (DestDir.mk [])).2).1.isExit = true
    ∧ ((main envNoZip pRet t0
        (main envNoZip pRet t0 (DestDir.mk [])).2).2).files.map Prod.fst
        = ["14-03-2021-10-30-45-project.tar.gz"] := by
  refine ⟨by decide, by decide, by decide, by decide⟩

/-- Witness for C6 (amended): the concrete same-second double run. -/
theorem c6_same_second_same_filename_witness :
    (TgzArchive.init "/data/project" "/backups"
        (strftime_dmyhms t0 ++ "-" ++ "project.tar.gz") (some 3)
        envNoZip).archive
      = strftime_dmyhms t0 ++ "-" ++ "project.tar.gz"
    ∧ ∃ res1 d1 res2 d2,
        main envNoZip pRet t0 (DestDir.mk []) = (.exit_json res1, d1)
        ∧ main envNoZip pRet t0 d1 = (.exit_json res2, d2)
        ∧ res1.changed = true ∧ res2.changed = true :=
  c6_same_second_same_filename envNoZip pRet t0 (DestDir.mk [])
    (TgzArchive.init "/data/project" "/backups"
      (strftime_dmyhms t0 ++ "-" ++ "project.tar.gz") (some 3) envNoZip)
    rfl rfl rfl rfl rfl rfl (fun _ => rfl)

/-- On a host whose binary lookup sends distinct names to distinct paths
(as `get_bin_path` does — the resolved path ends in the looked-up name),
the zip strategy rejects every tag other than `zip`. -/
theorem zip_check_false_of_ne (env : ModuleEnv)
    (hinj : ∀ m n pm pn, env.binPath m = some pm → env.binPath n = some pn
      → m ≠ n → pm ≠ pn)
    (src dest archive : String) (number : Option Int)
    (t : String) (ht : t ≠ "zip") :
    (ZipArchive.init src dest archive number env).archive_check t = false := by
  show (match env.binPath "zip" with
    | none => false
    | some p => env.binPath t == some p) = false
  cases hz : env.binPath "zip" with
  | none => rfl
  | some pz =>
    cases hw : env.binPath t with
    | none => rfl
    | some pt =>
      have hne : pt ≠ pz := hinj t "zip" pt pz hw hz ht
      simp [hne]

/-- C3: `pick_handler` probes the catalog in the fixed order
`zip, tgz, bz2, xz, tar` and returns the first strategy accepting the tag;
consequently, on a sane host each supported tag selects the strategy with
the conventional extension for that format. -/
theorem c3_pick_handler_extensions (env : ModuleEnv)
    (hinj : ∀ m n pm pn, env.binPath m = some pm → env.binPath n = some pn
      → m ≠ n → pm ≠ pn)
    (src dest archive : String) (number : Option Int) :
    (∀ arch_type, pick_handler src dest arch_type archive number env
      = [ZipArchive.init src dest archive number env,
         TgzArchive.init src dest archive number env,
         TarBzip.init src dest archive number env,
         TarXz.init src dest archive number env,
         TarArchive.init src dest archive number env].find?
          (fun obj => obj.archive_check arch_type))
    ∧ ((pick_handler src dest "tgz" archive number env).map
        (fun h => h.extension) = some ".tar.gz")
    ∧ ((pick_handler src dest "tar" archive number env).map
        (fun h => h.extension) = some ".tar")
    ∧ ((pick_handler src dest "bz2" archive number env).map
        (fun h => h.extension) = some ".tar.bz2")
    ∧ ((pick_handler src dest "xz" archive number env).map
        (fun h => h.extension) = some ".tar.xz")
    ∧ (∀ pz, env.binPath "zip" = some pz →
        (pick_handler src dest "zip" archive number env).map
          (fun h => h.extension) = some ".zip") := by
  have hzf := zip_check_false_of_ne env hinj src dest archive number
  have hneg : ∀ t, t ≠ "zip" →
      ¬((fun obj => Handler.archive_check obj t)
          (ZipArchive.init src dest archive number env) = true) := by
    intro t ht
    show ¬((ZipArchive.init src dest archive number env).archive_check t
      = true)
    rw [hzf t ht]
    simp
  refine ⟨fun _ => rfl, ?_, ?_, ?_, ?_, ?_⟩
  · show ([ZipArchive.init src dest archive number env,
      TgzArchive.init src dest archive number env,
      TarBzip.init src dest archive number env,
      TarXz.init src dest archive number env,
      TarArchive.init src dest archive number env].find?
        (fun obj => obj.archive_check "tgz")).map (fun h => h.extension)
      = some ".tar.gz"
    rw [@List.find?_cons_of_neg _ (fun obj => Handler.archive_check obj "tgz") (ZipArchive.init src dest archive number env) _ (hneg "tgz" (by decide)),
      @List.find?_cons_of_pos _ (fun obj => Handler.archive_check obj "tgz") (TgzArchive.init src dest archive number env) _ (rfl)]
    rfl
  · show ([ZipArchive.init src dest archive number env,
      TgzArchive.init src dest archive number env,
      TarBzip.init src dest archive number env,
      TarXz.init src dest archive number env,
      TarArchive.init src dest archive number env].find?
        (fun obj => obj.archive_check "tar")).map (fun h => h.extension)
      = some ".tar"
    rw [@List.find?_cons_of_neg _ (fun obj => Handler.archive_check obj "tar") (ZipArchive.init src dest archive number env) _ (hneg "tar" (by decide)),
      @List.find?_cons_of_neg _ (fun obj => Handler.archive_check obj "tar") (TgzArchive.init src dest archive number env) _ (fun h => nomatch h),
      @List.find?_cons_of_neg _ (fun obj => Handler.archive_check obj "tar") (TarBzip.init src dest archive number env) _ (fun h => nomatch h),
      @List.find?_cons_of_neg _ (fun obj => Handler.archive_check obj "tar") (TarXz.init src dest archive number env) _ (fun h => nomatch h),
      @List.find?_cons_of_pos _ (fun obj => Handler.archive_check obj "tar") (TarArchive.init src dest archive number env) _ (rfl)]
    rfl
  · show ([ZipArchive.init src dest archive number env,
      TgzArchive.init src dest archive number env,
      TarBzip.init src dest archive number env,
      TarXz.init src dest archive number env,
      TarArchive.init src dest archive number env].find?
        (fun obj => obj.archive_check "bz2")).map (fun h => h.extension)
      = some ".tar.bz2"
    rw [@List.find?_cons_of_neg _ (fun obj => Handler.archive_check obj "bz2") (ZipArchive.init src dest archive number env) _ (hneg "bz2" (by decide)),
      @List.find?_cons_of_neg _ (fun obj => Handler.archive_check obj "bz2") (TgzArchive.init src dest archive number env) _ (fun h => nomatch h),
      @List.find?_cons_of_pos _ (fun obj => Handler.archive_check obj "bz2") (TarBzip.init src dest archive number env) _ (rfl)]
    rfl
  · show ([ZipArchive.init src dest archive number env,
      TgzArchive.init src dest archive number env,
      TarBzip.init src dest archive number env,
      TarXz.init src dest archive number env,
      TarArchive.init src dest archive number env].find?
        (fun obj => obj.archive_check "xz")).map (fun h => h.extension)
      = some ".tar.xz"
    rw [@List.find?_cons_of_neg _ (fun obj => Handler.archive_check obj "xz") (ZipArchive.init src dest archive number env) _ (hneg "xz" (by decide)),
      @List.find?_cons_of_neg _ (fun obj => Handler.archive_check obj "xz") (TgzArchive.init src dest archive number env) _ (fun h => nomatch h),
      @List.find?_cons_of_neg _ (fun obj => Handler.archive_check obj "xz") (TarBzip.init src dest archive number env) _ (fun h => nomatch h),
      @List.find?_cons_of_pos _ (fun obj => Handler.archive_check obj "xz") (TarXz.init src dest archive number env) _ (rfl)]
    rfl
  · intro pz hz
    show ([ZipArchive.init src dest archive number env,
      TgzArchive.init src dest archive number env,
      TarBzip.init src dest archive number env,
      TarXz.init src dest archive number env,
      TarArchive.init src dest archive number env].find?
        (fun obj => obj.archive_check "zip")).map (fun h => h.extension)
      = some ".zip"
    rw [@List.find?_cons_of_pos _ (fun obj => Handler.archive_check obj "zip") (ZipArchive.init src dest archive number env) _ (by show ((match env.binPath "zip" with | none => false | some p => env.binPath "zip" == some p) = true); rw [hz]; simp)]
    rfl

/-- On the sample host, distinct binary names resolve to distinct paths. -/
theorem envTools_binPath_inj :
    ∀ m n pm pn, envTools.binPath m = some pm → envTools.binPath n = some pn
      → m ≠ n → pm ≠ pn := by
  have hres : ∀ x px, envTools.binPath x = some px →
      (x = "tar" ∧ px = "/usr/bin/tar") ∨ (x = "zip" ∧ px = "/usr/bin/zip") := by
    intro x px hx
    by_cases h1 : x = "tar"
    · subst h1
      simp only [envTools] at hx
      simp at hx
      exact Or.inl ⟨rfl, hx.symm⟩
    · by_cases h2 : x = "zip"
      · subst h2
        simp only [envTools] at hx
        simp at hx
        exact Or.inr ⟨rfl, hx.symm⟩
      · exfalso
        simp only [envTools, beq_eq_false_iff_ne.2 h1,
          beq_eq_false_iff_ne.2 h2] at hx
        simp at hx
  intro m n pm pn hm hn hmn
  rcases hres m pm hm with ⟨hm1, hp1⟩ | ⟨hm1, hp1⟩ <;>
    rcases hres n pn hn with ⟨hn1, hp2⟩ | ⟨hn1, hp2⟩ <;>
      subst hm1 <;> subst hn1 <;> subst hp1 <;> subst hp2 <;>
        first
          | exact absurd rfl hmn
          | decide

/-- Witness for C3: on the sample host with `tar` and `zip` present, each
tag selects the strategy with the conventional extension. -/
theorem c3_pick_handler_extensions_witness :
    (∀ arch_type, pick_handler "/s" "/d" arch_type "a.tar" (some 2) envTools
      = [ZipArchive.init "/s" "/d" "a.tar" (some 2) envTools,
         TgzArchive.init "/s" "/d" "a.tar" (some 2) envTools,
         TarBzip.init "/s" "/d" "a.tar" (some 2) envTools,
         TarXz.init "/s" "/d" "a.tar" (some 2) envTools,
         TarArchive.init "/s" "/d" "a.tar" (some 2) envTools].find?
          (fun obj => obj.archive_check arch_type))
    ∧ ((pick_handler "/s" "/d" "tgz" "a.tar" (some 2) envTools).map
        (fun h => h.extension) = some ".tar.gz")
    ∧ ((pick_handler "/s" "/d" "tar" "a.tar" (some 2) envTools).map
        (fun h => h.extension) = some ".tar")
    ∧ ((pick_handler "/s" "/d" "bz2" "a.tar" (some 2) envTools).map
        (fun h => h.extension) = some ".tar.bz2")
    ∧ ((pick_handler "/s" "/d" "xz" "a.tar" (some 2) envTools).map
        (fun h => h.extension) = some ".tar.xz")
    ∧ (∀ pz, envTools.binPath "zip" = some pz →
        (pick_handler "/s" "/d" "zip" "a.tar" (some 2) envTools).map
          (fun h => h.extension) = some ".zip") :=
  c3_pick_handler_extensions envTools envTools_binPath_inj
    "/s" "/d" "a.tar" (some 2)

end ArchiveModule
